import Mathlib

/-
  Verification of the judge-core repository (Rust) against its
  natural-language specification.

  Shallow embedding: the relevant Rust functions are translated into Lean
  definitions.  Stateful / effectful code (process spawning, cgroups,
  the vsock channel) is modelled by an explicit environment record whose
  fields carry the outcome of each external operation, and the control
  flow of the Rust function is reproduced over those outcomes.
-/

namespace JudgeCore

/-! ## String helpers mirroring Rust `str` semantics -/

/-- Rust `char::is_whitespace`: the Unicode White_Space property.
    (Code points: U+0009..U+000D, U+0020, U+0085, U+00A0, U+1680,
    U+2000..U+200A, U+2028, U+2029, U+202F, U+205F, U+3000.) -/
def rustIsWhitespace (c : Char) : Bool :=
  let n := c.toNat
  (0x9 ≤ n && n ≤ 0xD) || n = 0x20 || n = 0x85 || n = 0xA0 || n = 0x1680 ||
  (0x2000 ≤ n && n ≤ 0x200A) || n = 0x2028 || n = 0x2029 ||
  n = 0x202F || n = 0x205F || n = 0x3000

/-- ASCII whitespace (the set used by the spec's phrase
    "trimming ASCII whitespace"): space, \t, \n, \v, \f, \r. -/
def asciiIsWhitespace (c : Char) : Bool :=
  let n := c.toNat
  (0x9 ≤ n && n ≤ 0xD) || n = 0x20

/-- Trim characters satisfying `p` from both ends of a character list. -/
def trimListBy (p : Char → Bool) (cs : List Char) : List Char :=
  ((cs.dropWhile p).reverse.dropWhile p).reverse

/-- Rust `str::trim`: removes leading and trailing Unicode whitespace. -/
def rustTrim (s : String) : String :=
  ⟨trimListBy rustIsWhitespace s.data⟩

/-- Modelled from the spec: trimming only ASCII whitespace from both ends
    (the spec's §8 invariant 5 speaks of "ASCII whitespace"); used to compare
    the spec's wording with the source's `str::trim`. -/
def asciiTrim (s : String) : String :=
  ⟨trimListBy asciiIsWhitespace s.data⟩

/-- Split a character list at every newline character; like
    `String.splitOn "\n"`, the result always has one more piece than there
    are separators (so it is never empty). -/
def splitOnNewline : List Char → List (List Char)
  | [] => [[]]
  | c :: rest =>
    let r := splitOnNewline rest
    if c = '\n' then [] :: r
    else
      match r with
      | [] => [[c]]
      | h :: t => (c :: h) :: t

/-- Strip one trailing carriage return (used by `rustLines` for `\r\n`). -/
def stripCr (cs : List Char) : List Char :=
  match cs.getLast? with
  | some '\r' => cs.dropLast
  | _ => cs

/-- Rust `str::lines`: split at `\n` or `\r\n`; the final line ending is
    optional; a trailing `\r` not followed by `\n` is kept. -/
def rustLines (s : String) : List String :=
  let parts := splitOnNewline s.data
  let init := (parts.dropLast).map (fun l => String.mk (stripCr l))
  match parts.getLast? with
  | none => []
  | some last => if last = [] then init else init ++ [String.mk last]

/-- Helper for `rustSplitWhitespace`: `cur` holds the characters of the
    token in progress, in reverse order. -/
def splitWhitespaceAux : List Char → List Char → List String
  | [], cur => if cur = [] then [] else [String.mk cur.reverse]
  | c :: rest, cur =>
    if rustIsWhitespace c then
      if cur = [] then splitWhitespaceAux rest []
      else String.mk cur.reverse :: splitWhitespaceAux rest []
    else splitWhitespaceAux rest (c :: cur)

/-- Rust `str::split_whitespace`: split on runs of Unicode whitespace,
    yielding only non-empty tokens. -/
def rustSplitWhitespace (s : String) : List String :=
  splitWhitespaceAux s.data []

/-- Equality of `Except` values is decidable componentwise (needed so that
    concrete parser results can be checked by `decide`). -/
instance {ε α : Type} [DecidableEq ε] [DecidableEq α] :
    DecidableEq (Except ε α) := fun x y =>
  match x, y with
  | .error a, .error b =>
    if h : a = b then .isTrue (by rw [h])
    else .isFalse (by intro hh; cases hh; exact h rfl)
  | .ok a, .ok b =>
    if h : a = b then .isTrue (by rw [h])
    else .isFalse (by intro hh; cases hh; exact h rfl)
  | .error a, .ok b => .isFalse (by intro hh; cases hh)
  | .ok a, .error b => .isFalse (by intro hh; cases hh)

/-- Rust `u64::from_str` (`"...".parse::<u64>()`): an optional leading `+`,
    then one or more ASCII digits, value below 2^64; anything else fails. -/
def parseU64 (s : String) : Option Nat :=
  let ds := match s.data with
    | '+' :: rest => rest
    | cs => cs
  if ds = [] then none
  else if ds.all Char.isDigit then
    let v := ds.foldl (fun a c => a * 10 + (c.toNat - 48)) 0
    if v < 2 ^ 64 then some v else none
  else none

/-! ## `CpuStats` parser (src/crates/agent/src/utils.rs) -/

/-- Rust `ParseCpuStatsError` from utils.rs. -/
inductive ParseCpuStatsError where
  | InvalidNumber (s : String)
  | InvalidRow (s : String)
  | MissingImportantField (s : String)
deriving DecidableEq, Repr

/-- The `thiserror`-derived `Display` messages of `ParseCpuStatsError`. -/
def ParseCpuStatsError.message : ParseCpuStatsError → String
  | .InvalidNumber s => "Invalid number: \"" ++ s ++ "\""
  | .InvalidRow s => "Invalid row: \"" ++ s ++ "\""
  | .MissingImportantField s => "Missing important field: \"" ++ s ++ "\""

/-- Rust `CpuStats` from utils.rs. -/
structure CpuStats where
  usage_usec : Nat
  user_usec : Nat
  system_usec : Nat
deriving DecidableEq, Repr

/-- Rust `HashMap::insert` with last-wins lookup is modelled by consing the new
    binding in front and looking up front-to-back. -/
def statsInsert (stats : List (String × Nat)) (k : String) (v : Nat) :
    List (String × Nat) :=
  (k, v) :: stats

/-- Rust `HashMap::get` over the model: first (i.e. most recent) binding wins. -/
def statsGet (stats : List (String × Nat)) (k : String) : Option Nat :=
  (stats.find? (fun p => p.1 == k)).map (fun p => p.2)

/-- The per-line loop of `CpuStats::from_str`: each line must split into
    exactly two whitespace-separated tokens whose second parses as `u64`;
    the first bad line aborts with `InvalidRow` / `InvalidNumber`. -/
def buildStats : List String → List (String × Nat) →
    Except ParseCpuStatsError (List (String × Nat))
  | [], acc => .ok acc
  | line :: rest, acc =>
    match rustSplitWhitespace line with
    | [k, vtok] =>
      match parseU64 vtok with
      | some v => buildStats rest (statsInsert acc k v)
      | none => .error (.InvalidNumber vtok)
    | _ => .error (.InvalidRow line)

/-- Rust `CpuStats::from_str` (utils.rs lines 14-44). -/
def cpuStatsFromStr (s : String) : Except ParseCpuStatsError CpuStats :=
  match buildStats (rustLines s) [] with
  | .error e => .error e
  | .ok stats =>
    match statsGet stats "usage_usec" with
    | none => .error (.MissingImportantField "usage_usec")
    | some usage =>
      match statsGet stats "user_usec" with
      | none => .error (.MissingImportantField "user_usec")
      | some user =>
        match statsGet stats "system_usec" with
        | none => .error (.MissingImportantField "system_usec")
        | some system =>
          .ok { usage_usec := usage, user_usec := user, system_usec := system }

/-! ## RPC schema (src/crates/shared/src/rpc.rs) -/

/-- Rust `JudgeResult` from rpc.rs. -/
inductive JudgeResult where
  | Accepted (cpu_time_ms real_time_ms memory_kib : Nat)
  | WrongAnswer (expected_output actual_output : String)
  | RuntimeError (actual_output error_message : String)
  | CompilationError (compiler_message : String)
  | InternalError (error_message : String)
  | TimeLimitExceeded
  | MemoryLimitExceeded
  | OutputLimitExceeded
  | PresentationError
deriving DecidableEq, Repr

/-- Rust `matches!(self, Self::InternalError { .. })` from
    `JudgeResult::into_judge_response`. -/
def JudgeResult.isInternalError : JudgeResult → Bool
  | .InternalError _ => true
  | _ => false

/-- Rust `JudgeResponse` from rpc.rs (`is_fatal_error` is an `Option<bool>`). -/
structure JudgeResponse where
  id : Nat
  is_fatal_error : Option Bool
  result : JudgeResult
deriving DecidableEq, Repr

/-- Rust `JudgeResult::into_judge_response` (rpc.rs lines 53-64). -/
def JudgeResult.into_judge_response (self : JudgeResult) (id : Nat) :
    JudgeResponse :=
  { id := id, is_fatal_error := some self.isInternalError, result := self }

/-- Rust `Language` from rpc.rs. -/
inductive Language where
  | Cpp
deriving DecidableEq, Repr

/-- Rust `ResourceLimits` from rpc.rs. -/
structure ResourceLimits where
  time_ms : Nat
  memory_kib : Nat
deriving DecidableEq, Repr

/-- Rust `TestCase` from rpc.rs. -/
structure TestCase where
  input_data : String
  expected_output : String
deriving DecidableEq, Repr

/-- Rust `JudgeRequest` from rpc.rs. -/
structure JudgeRequest where
  id : Nat
  language : Language
  source_code : String
  test_cases : List TestCase
  limits : ResourceLimits
deriving DecidableEq, Repr

/-! ## Handler data types (src/crates/agent/src/handler/mod.rs) -/

/-- Rust `std::process::ExitStatus`, reduced to the only observation the agent
    makes of it: `success()`. -/
structure ExitStatus where
  success : Bool
deriving DecidableEq, Repr

/-- Rust `CompileInfo` from handler/mod.rs. -/
structure CompileInfo where
  status_code : ExitStatus
  stdout : String
  stderr : String
deriving DecidableEq, Repr

/-- Rust `ResourceUsage` from handler/mod.rs. -/
structure ResourceUsage where
  memory_kib : Nat
  real_time_ms : Nat
  cpu_time_ms : Nat
deriving DecidableEq, Repr

/-- Rust `ExecuteInfo` from handler/mod.rs. -/
structure ExecuteInfo where
  status_code : ExitStatus
  stdout : String
  stderr : String
  resource_usage : ResourceUsage
deriving DecidableEq, Repr

/-- Rust `HandlerError` from handler/mod.rs.  `IoError` / `CgroupError` carry the
    error's display string; the `ParseCpuStatsError` variant is named
    `ParseCpuStats` here to avoid clashing with the error type itself. -/
inductive HandlerError where
  | IoError (msg : String)
  | TimeLimitExceeded
  | MemoryLimitExceeded
  | OutputLimitExceeded
  | InternalError (msg : String)
  | CgroupError (msg : String)
  | ParseCpuStats (e : ParseCpuStatsError)
deriving DecidableEq, Repr

/-- Rust `impl From<HandlerError> for JudgeResult` (handler/mod.rs lines 25-45). -/
def HandlerError.toJudgeResult : HandlerError → JudgeResult
  | .IoError m => .InternalError m
  | .TimeLimitExceeded => .TimeLimitExceeded
  | .MemoryLimitExceeded => .MemoryLimitExceeded
  | .OutputLimitExceeded => .OutputLimitExceeded
  | .InternalError m => .InternalError m
  | .CgroupError m => .InternalError m
  | .ParseCpuStats e => .InternalError e.message

/-! ## Engine (src/crates/agent/src/engine.rs)

The handler the Engine drives is abstracted by the outcomes of its four
operations.  `execute` is a function of the test index and of the exact
arguments `Engine::judge` passes (input data, the two limits, and the
stdout/stderr byte limits), mirroring the `Handler` trait signature. -/

/-- The outcomes of one submission's handler calls, as seen by
    `Engine::judge`. -/
structure HandlerBehavior where
  needs_compile : Bool
  prepare : Except HandlerError Unit
  compile : Except HandlerError (Option CompileInfo)
  execute : Nat → String → Nat → Nat → Nat → Nat → Except HandlerError ExecuteInfo
  cleanup : Except HandlerError Unit

/-- The per-test loop of `Engine::judge` (engine.rs lines 50-122): verdict
    checks in order time, memory, exit status, trimmed output; the first
    failing check returns immediately; when the list is exhausted, `cleanup`
    runs and the accumulated maxima become the `Accepted` verdict. -/
def judgeTests (hb : HandlerBehavior) (limits : ResourceLimits) (reqId : Nat) :
    List TestCase → Nat → Nat → Nat → Nat → JudgeResponse
  | [], _, maxCpu, maxReal, maxMem =>
    match hb.cleanup with
    | .error e => e.toJudgeResult.into_judge_response reqId
    | .ok _ =>
      (JudgeResult.Accepted maxCpu maxReal maxMem).into_judge_response reqId
  | case :: rest, idx, maxCpu, maxReal, maxMem =>
    let stdoutLimit := case.expected_output.utf8ByteSize * 2
    let stderrLimit := 128 * 1024
    match hb.execute idx case.input_data limits.time_ms limits.memory_kib
        stdoutLimit stderrLimit with
    | .error e => e.toJudgeResult.into_judge_response reqId
    | .ok result =>
      if result.resource_usage.cpu_time_ms > limits.time_ms then
        JudgeResult.TimeLimitExceeded.into_judge_response reqId
      else if result.resource_usage.memory_kib > limits.memory_kib then
        JudgeResult.MemoryLimitExceeded.into_judge_response reqId
      else if !result.status_code.success then
        (JudgeResult.RuntimeError
          ("Stdout:\n" ++ result.stdout ++ "\nStderr:\n" ++ result.stderr)
          "Non-zero exit code").into_judge_response reqId
      else if rustTrim case.expected_output ≠ rustTrim result.stdout then
        (JudgeResult.WrongAnswer (rustTrim case.expected_output)
          (rustTrim result.stdout)).into_judge_response reqId
      else
        judgeTests hb limits reqId rest (idx + 1)
          (max maxCpu result.resource_usage.cpu_time_ms)
          (max maxReal result.resource_usage.real_time_ms)
          (max maxMem result.resource_usage.memory_kib)

/-- Rust `Engine::judge` (engine.rs lines 8-122).  The `Ok(info) => info.unwrap()`
    on the compile result panics when the handler returns `Ok(None)`; that
    panic is modelled by the result `none`. -/
def judge (hb : HandlerBehavior) (req : JudgeRequest) : Option JudgeResponse :=
  match hb.prepare with
  | .error e => some (e.toJudgeResult.into_judge_response req.id)
  | .ok _ =>
    if hb.needs_compile then
      match hb.compile with
      | .error e => some (e.toJudgeResult.into_judge_response req.id)
      | .ok none => none
      | .ok (some ci) =>
        if !ci.status_code.success then
          some ((JudgeResult.CompilationError
            ("Stdout:\n" ++ ci.stdout ++ "\nStderr:\n" ++ ci.stderr)
            ).into_judge_response req.id)
        else
          some (judgeTests hb req.limits req.id req.test_cases 0 0 0 0)
    else
      some (judgeTests hb req.limits req.id req.test_cases 0 0 0 0)

/-- Mirror of the control flow of `judgeTests` recording whether the
    `handler.cleanup` call site (engine.rs line 111) is reached: it is
    reached exactly when every test case passes all four checks. -/
def judgeTestsReachCleanup (hb : HandlerBehavior) (limits : ResourceLimits) :
    List TestCase → Nat → Bool
  | [], _ => true
  | case :: rest, idx =>
    let stdoutLimit := case.expected_output.utf8ByteSize * 2
    let stderrLimit := 128 * 1024
    match hb.execute idx case.input_data limits.time_ms limits.memory_kib
        stdoutLimit stderrLimit with
    | .error _ => false
    | .ok result =>
      if result.resource_usage.cpu_time_ms > limits.time_ms then false
      else if result.resource_usage.memory_kib > limits.memory_kib then false
      else if !result.status_code.success then false
      else if rustTrim case.expected_output ≠ rustTrim result.stdout then false
      else judgeTestsReachCleanup hb limits rest (idx + 1)

/-- Mirror of the control flow of `judge` recording whether the
    `handler.cleanup` call site is reached for the submission. -/
def cleanupInvoked (hb : HandlerBehavior) (req : JudgeRequest) : Bool :=
  match hb.prepare with
  | .error _ => false
  | .ok _ =>
    if hb.needs_compile then
      match hb.compile with
      | .error _ => false
      | .ok none => false
      | .ok (some ci) =>
        if !ci.status_code.success then false
        else judgeTestsReachCleanup hb req.limits req.test_cases 0
    else judgeTestsReachCleanup hb req.limits req.test_cases 0

/-! ## C++ handler (src/crates/agent/src/handler/cpp.rs)

`CppHandler::compile` and `CppHandler::execute` interact with the OS
(spawning, cgroups, pipes, timers).  Each external operation's outcome is a
field of an environment record, and the Rust function's control flow is
reproduced over those outcomes.  `Option String` fields hold the display
message of the operation's error when it fails, `none` when it succeeds.
Captured child output is carried as `String` (i.e. valid UTF-8, on which
`String::from_utf8_lossy` is the identity), so Rust's byte length
`Vec::len` is `String.utf8ByteSize`. -/

/-- Outcomes of the external operations performed by `CppHandler::compile`. -/
structure CppCompileEnv where
  spawnErr : Option String
  pid : Option Nat
  cgroupBuildErr : Option String
  addTaskErr : Option String
  deleteErr : Option String
  timedOut : Bool
  waitErr : Option String
  fail_cnt : Nat
  status_code : ExitStatus
  stdout : String
  stderr : String

/-- Rust `CppHandler::compile` (cpp.rs lines 56-120).  The wall-clock limit only
    determines whether the timeout fires, which the environment records as
    `timedOut`, so the numeric limit does not appear again here.  The
    `cg.delete()?` on each exit path can itself fail (`deleteErr`). -/
def cppCompile (env : CppCompileEnv) : Except HandlerError (Option CompileInfo) :=
  match env.spawnErr with
  | some e => .error (.IoError e)
  | none =>
  match env.pid with
  | none => .error (.InternalError "Cannot get compiler pid")
  | some _ =>
  match env.cgroupBuildErr with
  | some e => .error (.CgroupError e)
  | none =>
  match env.addTaskErr with
  | some e => .error (.CgroupError e)
  | none =>
  if env.timedOut then
    match env.deleteErr with
    | some d => .error (.CgroupError d)
    | none => .error .TimeLimitExceeded
  else
  match env.waitErr with
  | some e =>
    (match env.deleteErr with
    | some d => .error (.CgroupError d)
    | none => .error (.IoError e))
  | none =>
  if env.fail_cnt > 0 then
    match env.deleteErr with
    | some d => .error (.CgroupError d)
    | none => .error .MemoryLimitExceeded
  else
  match env.deleteErr with
  | some d => .error (.CgroupError d)
  | none =>
    .ok (some { status_code := env.status_code,
                stdout := env.stdout, stderr := env.stderr })

/-- Outcomes of the external operations performed by `CppHandler::execute`. -/
structure CppExecEnv where
  spawnErr : Option String
  pid : Option Nat
  cgroupBuildErr : Option String
  addTaskErr : Option String
  stdinWriteErr : Option String
  deleteErr : Option String
  timedOut : Bool
  waitErr : Option String
  fail_cnt : Nat
  max_usage_in_bytes : Nat
  status_code : ExitStatus
  stdout : String
  stderr : String
  cpuStat : String
  elapsed_ms : Nat

/-- Rust `CppHandler::execute` (cpp.rs lines 122-219).  Note the signature of the
    source function: it takes a single `output_limit_u8` parameter — not the
    separate `stdout_limit_bytes` / `stderr_limit_bytes` that the `Handler`
    trait declares and that `Engine::judge` passes — and compares the length
    of **both** captured streams against that one limit (stderr first).
    A `cpu.stat` parse failure propagates before the final `cg.delete()`. -/
def cppExecute (env : CppExecEnv) (memory_limit_kib : Nat)
    (output_limit_u8 : Nat) : Except HandlerError ExecuteInfo :=
  match env.spawnErr with
  | some e => .error (.IoError e)
  | none =>
  match env.pid with
  | none => .error (.InternalError "Cannot get child process pid")
  | some _ =>
  match env.cgroupBuildErr with
  | some e => .error (.CgroupError e)
  | none =>
  match env.addTaskErr with
  | some e => .error (.CgroupError e)
  | none =>
  match env.stdinWriteErr with
  | some e => .error (.IoError e)
  | none =>
  if env.timedOut then
    match env.deleteErr with
    | some d => .error (.CgroupError d)
    | none => .error .TimeLimitExceeded
  else
  match env.waitErr with
  | some e =>
    (match env.deleteErr with
    | some d => .error (.CgroupError d)
    | none => .error (.IoError e))
  | none =>
  if env.fail_cnt > 0 then
    match env.deleteErr with
    | some d => .error (.CgroupError d)
    | none => .error .MemoryLimitExceeded
  else
  if env.max_usage_in_bytes > memory_limit_kib * 1024 then
    match env.deleteErr with
    | some d => .error (.CgroupError d)
    | none => .error .MemoryLimitExceeded
  else
  if env.stderr.utf8ByteSize > output_limit_u8 then
    match env.deleteErr with
    | some d => .error (.CgroupError d)
    | none => .error .OutputLimitExceeded
  else
  if env.stdout.utf8ByteSize > output_limit_u8 then
    match env.deleteErr with
    | some d => .error (.CgroupError d)
    | none => .error .OutputLimitExceeded
  else
  match cpuStatsFromStr env.cpuStat with
  | .error e => .error (.ParseCpuStats e)
  | .ok cpu =>
  match env.deleteErr with
  | some d => .error (.CgroupError d)
  | none =>
    .ok { status_code := env.status_code,
          stdout := env.stdout, stderr := env.stderr,
          resource_usage :=
            { memory_kib := (env.max_usage_in_bytes + 1023) / 1024,
              real_time_ms := env.elapsed_ms,
              cpu_time_ms := cpu.usage_usec } }

/-! ## Agent loop (src/crates/agent/src/main.rs)

One iteration of the `loop` in `main`.  `receive_data`, `postcard`
decoding/encoding, the spawned judging task and `send_data` are abstracted
by their outcomes; `?` on any failure returns the error from `main`
without sending anything. -/

/-- Outcomes of the external operations of one agent-loop iteration. -/
structure AgentEnv where
  receiveResult : Except String (List Nat)
  decodeResult : Except String JudgeRequest
  joinErr : Option String
  judgeOf : JudgeRequest → JudgeResponse
  encodeErr : Option String
  sendErr : Option String

/-- How one iteration of the agent loop ends; each constructor carries the
    responses sent to the host during the iteration. -/
inductive AgentOutcome where
  | mainErr (sent : List JudgeResponse)
  | exitCode1 (sent : List JudgeResponse)
  | continueLoop (sent : List JudgeResponse)
deriving DecidableEq, Repr

/-- One iteration of the agent loop (main.rs lines 19-49): receive, decode,
    judge, encode, send, then exit with code 1 if the response was fatal. -/
def agentLoopStep (env : AgentEnv) : AgentOutcome :=
  match env.receiveResult with
  | .error _ => .mainErr []
  | .ok _ =>
  match env.decodeResult with
  | .error _ => .mainErr []
  | .ok req =>
  match env.joinErr with
  | some _ => .mainErr []
  | none =>
    let response := env.judgeOf req
    let is_fatal := response.is_fatal_error.getD false
    match env.encodeErr with
    | some _ => .mainErr []
    | none =>
    match env.sendErr with
    | some _ => .mainErr []
    | none =>
      if is_fatal then .exitCode1 [response] else .continueLoop [response]

/-! ## Shared lemmas -/

lemma into_judge_response_result (jr : JudgeResult) (id : Nat) :
    (jr.into_judge_response id).result = jr := rfl

lemma into_judge_response_inj {x y : JudgeResult} {id1 id2 : Nat}
    (h : x.into_judge_response id1 = y.into_judge_response id2) : x = y :=
  congrArg JudgeResponse.result h

lemma toJudgeResult_ne_Accepted (e : HandlerError) (cpu r m : Nat) :
    e.toJudgeResult ≠ .Accepted cpu r m := by
  cases e <;> simp [HandlerError.toJudgeResult]

lemma toJudgeResult_ne_WrongAnswer (e : HandlerError) (x y : String) :
    e.toJudgeResult ≠ .WrongAnswer x y := by
  cases e <;> simp [HandlerError.toJudgeResult]

/-- Unfolding equation: `judgeTests` on the empty list. -/
lemma judgeTests_nil (hb : HandlerBehavior) (limits : ResourceLimits)
    (reqId idx a b c : Nat) :
    judgeTests hb limits reqId [] idx a b c =
      (match hb.cleanup with
       | .error e => e.toJudgeResult.into_judge_response reqId
       | .ok _ =>
         (JudgeResult.Accepted a b c).into_judge_response reqId) := rfl

/-- Unfolding equation: `judgeTests` on a cons cell. -/
lemma judgeTests_cons (hb : HandlerBehavior) (limits : ResourceLimits)
    (reqId idx a b c : Nat) (case : TestCase) (rest : List TestCase) :
    judgeTests hb limits reqId (case :: rest) idx a b c =
      (match hb.execute idx case.input_data limits.time_ms limits.memory_kib
          (case.expected_output.utf8ByteSize * 2) (128 * 1024) with
       | .error e => e.toJudgeResult.into_judge_response reqId
       | .ok result =>
         if result.resource_usage.cpu_time_ms > limits.time_ms then
           JudgeResult.TimeLimitExceeded.into_judge_response reqId
         else if result.resource_usage.memory_kib > limits.memory_kib then
           JudgeResult.MemoryLimitExceeded.into_judge_response reqId
         else if !result.status_code.success then
           (JudgeResult.RuntimeError
             ("Stdout:\n" ++ result.stdout ++ "\nStderr:\n" ++ result.stderr)
             "Non-zero exit code").into_judge_response reqId
         else if rustTrim case.expected_output ≠ rustTrim result.stdout then
           (JudgeResult.WrongAnswer (rustTrim case.expected_output)
             (rustTrim result.stdout)).into_judge_response reqId
         else
           judgeTests hb limits reqId rest (idx + 1)
             (max a result.resource_usage.cpu_time_ms)
             (max b result.resource_usage.real_time_ms)
             (max c result.resource_usage.memory_kib)) := rfl

/-- Every value `judgeTests` returns is built by `into_judge_response`. -/
lemma judgeTests_isInto (hb : HandlerBehavior) (limits : ResourceLimits)
    (reqId : Nat) :
    ∀ (cases : List TestCase) (idx a b c : Nat), ∃ jr : JudgeResult,
      judgeTests hb limits reqId cases idx a b c =
        jr.into_judge_response reqId := by
  intro cases
  induction cases with
  | nil =>
    intro idx a b c
    rw [judgeTests_nil]
    cases hb.cleanup with
    | error e => exact ⟨e.toJudgeResult, rfl⟩
    | ok _ => exact ⟨.Accepted a b c, rfl⟩
  | cons case rest ih =>
    intro idx a b c
    rw [judgeTests_cons]
    cases hexec : hb.execute idx case.input_data limits.time_ms
        limits.memory_kib (case.expected_output.utf8ByteSize * 2)
        (128 * 1024) with
    | error e => exact ⟨e.toJudgeResult, rfl⟩
    | ok r =>
      dsimp only
      by_cases h1 : r.resource_usage.cpu_time_ms > limits.time_ms
      · rw [if_pos h1]; exact ⟨.TimeLimitExceeded, rfl⟩
      · rw [if_neg h1]
        by_cases h2 : r.resource_usage.memory_kib > limits.memory_kib
        · rw [if_pos h2]; exact ⟨.MemoryLimitExceeded, rfl⟩
        · rw [if_neg h2]
          cases h3 : r.status_code.success with
          | false =>
            simp only [h3, Bool.not_false, if_true]
            exact ⟨.RuntimeError
              ("Stdout:\n" ++ r.stdout ++ "\nStderr:\n" ++ r.stderr)
              "Non-zero exit code", rfl⟩
          | true =>
            simp only [h3, Bool.not_true, Bool.false_eq_true, if_false]
            by_cases h4 : rustTrim case.expected_output ≠ rustTrim r.stdout
            · rw [if_pos h4]
              exact ⟨.WrongAnswer (rustTrim case.expected_output)
                (rustTrim r.stdout), rfl⟩
            · rw [if_neg h4]
              exact ih (idx + 1) (max a r.resource_usage.cpu_time_ms)
                (max b r.resource_usage.real_time_ms)
                (max c r.resource_usage.memory_kib)

/-- Every response `judge` returns is built by `into_judge_response`
    with the request's id. -/
lemma judge_isInto (hb : HandlerBehavior) (req : JudgeRequest)
    (resp : JudgeResponse) (h : judge hb req = some resp) :
    ∃ jr : JudgeResult, resp = jr.into_judge_response req.id := by
  unfold judge at h
  cases hp : hb.prepare with
  | error e =>
    rw [hp] at h
    exact ⟨e.toJudgeResult, (Option.some_inj.mp h).symm⟩
  | ok u =>
    rw [hp] at h
    dsimp only at h
    by_cases hnc : hb.needs_compile = true
    · rw [if_pos hnc] at h
      cases hc : hb.compile with
      | error e =>
        rw [hc] at h
        exact ⟨e.toJudgeResult, (Option.some_inj.mp h).symm⟩
      | ok oci =>
        rw [hc] at h
        cases oci with
        | none => simp at h
        | some ci =>
          dsimp only at h
          cases hs : ci.status_code.success with
          | false =>
            simp only [hs, Bool.not_false, if_true] at h
            exact ⟨.CompilationError
              ("Stdout:\n" ++ ci.stdout ++ "\nStderr:\n" ++ ci.stderr),
              (Option.some_inj.mp h).symm⟩
          | true =>
            simp only [hs, Bool.not_true, Bool.false_eq_true, if_false] at h
            obtain ⟨jr, hjr⟩ :=
              judgeTests_isInto hb req.limits req.id req.test_cases 0 0 0 0
            exact ⟨jr, by rw [← Option.some_inj.mp h, hjr]⟩
    · rw [if_neg hnc] at h
      obtain ⟨jr, hjr⟩ :=
        judgeTests_isInto hb req.limits req.id req.test_cases 0 0 0 0
      exact ⟨jr, by rw [← Option.some_inj.mp h, hjr]⟩

/-! ## Concrete fixtures used by witnesses and counterexamples -/

/-- A successful execution with empty output and zero resource usage. -/
def okExecInfo : ExecuteInfo :=
  { status_code := { success := true }, stdout := "", stderr := "",
    resource_usage := { memory_kib := 0, real_time_ms := 0, cpu_time_ms := 0 } }

/-- A handler whose every operation succeeds trivially (a language that
    needs no compilation). -/
def hbTrivial : HandlerBehavior :=
  { needs_compile := false, prepare := .ok (), compile := .ok none,
    execute := fun _ _ _ _ _ _ => .ok okExecInfo, cleanup := .ok () }

/-- A request with an empty list of test cases. -/
def reqNoTests : JudgeRequest :=
  { id := 3, language := .Cpp, source_code := "",
    test_cases := [], limits := { time_ms := 1000, memory_kib := 65536 } }

/-- A compile run in which every external operation succeeds. -/
def compileEnvOk : CppCompileEnv :=
  { spawnErr := none, pid := some 10, cgroupBuildErr := none,
    addTaskErr := none, deleteErr := none, timedOut := false,
    waitErr := none, fail_cnt := 0,
    status_code := { success := true }, stdout := "", stderr := "" }

/-- A handler behavior whose compile outcome is the modelled
    `CppHandler::compile` on a clean run. -/
def hbCompileModeled : HandlerBehavior :=
  { needs_compile := true, prepare := .ok (),
    compile := cppCompile compileEnvOk,
    execute := fun _ _ _ _ _ _ => .ok okExecInfo, cleanup := .ok () }

/-- A clean execute run: child exits 0, no output, 1500 bytes of peak
    memory, 42 ms of wall time, and a `cpu.stat` reporting 5000 µs. -/
def execEnvCpu : CppExecEnv :=
  { spawnErr := none, pid := some 42, cgroupBuildErr := none,
    addTaskErr := none, stdinWriteErr := none, deleteErr := none,
    timedOut := false, waitErr := none, fail_cnt := 0,
    max_usage_in_bytes := 1500, status_code := { success := true },
    stdout := "", stderr := "",
    cpuStat := "usage_usec 5000\nuser_usec 3000\nsystem_usec 2000",
    elapsed_ms := 42 }

/-- A clean execute run whose child wrote 1 byte to stdout and 3 bytes to
    stderr. -/
def execEnvOle : CppExecEnv :=
  { spawnErr := none, pid := some 42, cgroupBuildErr := none,
    addTaskErr := none, stdinWriteErr := none, deleteErr := none,
    timedOut := false, waitErr := none, fail_cnt := 0,
    max_usage_in_bytes := 1500, status_code := { success := true },
    stdout := "x", stderr := "abc",
    cpuStat := "usage_usec 5000\nuser_usec 3000\nsystem_usec 2000",
    elapsed_ms := 42 }

/-! ## Claim C8 -/

/-- Claim C8: for every response produced for a request, `is_fatal_error`
    is true if and only if the result is the `InternalError` verdict, and
    any other verdict carries `is_fatal_error = some false`. -/
theorem fatal_iff_internal (hb : HandlerBehavior) (req : JudgeRequest)
    (resp : JudgeResponse) (h : judge hb req = some resp) :
    (resp.is_fatal_error = some true ↔ resp.result.isInternalError = true) ∧
    (resp.result.isInternalError = false →
      resp.is_fatal_error = some false) := by
  obtain ⟨jr, rfl⟩ := judge_isInto hb req resp h
  constructor
  · simp [JudgeResult.into_judge_response]
  · intro hfalse
    simp only [JudgeResult.into_judge_response] at hfalse ⊢
    rw [hfalse]

/-- Witness for C8: a concrete run ending Accepted has
    `is_fatal_error = some false`. -/
theorem fatal_iff_internal_witness :
    ((JudgeResult.Accepted 0 0 0).into_judge_response 3).is_fatal_error =
      some false :=
  (fatal_iff_internal hbTrivial reqNoTests
    ((JudgeResult.Accepted 0 0 0).into_judge_response 3) rfl).2 rfl

/-! ## Claim C10 -/

/-- Claim C10: every successful return of `CppHandler::compile` is
    `Ok(Some(..))` and never `Ok(None)`; hence for a handler whose compile
    outcome comes from `CppHandler::compile`, the `info.unwrap()` in
    `Engine::judge` (modelled as the result `none`) cannot panic. -/
theorem compile_never_none :
    (∀ env : CppCompileEnv, cppCompile env ≠ Except.ok none) ∧
    (∀ (hb : HandlerBehavior) (req : JudgeRequest) (env : CppCompileEnv),
      hb.compile = cppCompile env → judge hb req ≠ none) := by
  have h1 : ∀ env : CppCompileEnv, cppCompile env ≠ Except.ok none := by
    intro env hcon
    unfold cppCompile at hcon
    repeat' split at hcon
    all_goals first
      | exact Option.noConfusion (Except.ok.inj hcon)
      | simp only [reduceCtorEq] at hcon
  refine ⟨h1, ?_⟩
  intro hb req env hcomp hnone
  unfold judge at hnone
  cases hp : hb.prepare with
  | error e => rw [hp] at hnone; simp at hnone
  | ok u =>
    rw [hp] at hnone
    dsimp only at hnone
    by_cases hnc : hb.needs_compile = true
    · rw [if_pos hnc, hcomp] at hnone
      cases hc : cppCompile env with
      | error e => rw [hc] at hnone; simp at hnone
      | ok oci =>
        cases oci with
        | none => exact h1 env hc
        | some ci =>
          rw [hc] at hnone
          dsimp only at hnone
          cases hs : ci.status_code.success <;> simp [hs] at hnone
    · rw [if_neg hnc] at hnone
      simp at hnone

/-- Witness for C10: with the clean-run compile outcome plugged into the
    Engine, `judge` does not panic. -/
theorem compile_never_none_witness :
    judge hbCompileModeled reqNoTests ≠ none :=
  compile_never_none.2 hbCompileModeled reqNoTests compileEnvOk rfl

/-! ## Claim C2 -/

/-- Claim C2 (code bug): on a clean run, `memory_kib` is the ceiling of
    `max_usage_in_bytes / 1024` and `real_time_ms` the elapsed time, but
    `cpu_time_ms` receives the parsed `usage_usec` **undivided**: with
    `usage_usec 5000` the field holds 5000, not 5000 / 1000 = 5. -/
theorem execute_stores_usage_usec_raw :
    cppExecute execEnvCpu 65536 100 =
      .ok { status_code := { success := true }, stdout := "", stderr := "",
            resource_usage :=
              { memory_kib := 2, real_time_ms := 42, cpu_time_ms := 5000 } } ∧
    (2 : Nat) = (1500 + 1023) / 1024 ∧ (5000 : Nat) ≠ 5000 / 1000 :=
  ⟨by decide, by decide, by decide⟩

/-! ## Claim C4 -/

/-- Claim C4 (code bug): `CppHandler::execute` takes a single
    `output_limit_u8` parameter — not the separate `stdout_limit_bytes` /
    `stderr_limit_bytes` the `Handler` trait declares and `Engine::judge`
    passes — and compares both streams against it.  With the per-test
    stdout limit 2 (expected output of byte length 1) in that position,
    a run with 1 stdout byte and 3 stderr bytes is rejected as
    OutputLimitExceeded, although neither stream exceeds its own limit
    from the claim (stdout 1 ≤ 2, stderr 3 ≤ 128 KiB). -/
theorem execute_single_limit_both_streams :
    cppExecute execEnvOle 65536 2 = .error .OutputLimitExceeded ∧
    ¬(("x" : String).utf8ByteSize > 2 ∨
      ("abc" : String).utf8ByteSize > 128 * 1024) :=
  ⟨by decide, by decide⟩

/-! ## Claim C6 -/

/-- An iteration that receives a frame whose payload fails to decode. -/
def agentEnvDecodeFail : AgentEnv :=
  { receiveResult := .ok [0, 1, 2],
    decodeResult := .error "postcard deserialize error",
    joinErr := none,
    judgeOf := fun req => (JudgeResult.Accepted 0 0 0).into_judge_response req.id,
    encodeErr := none, sendErr := none }

/-- An iteration whose judged response is a fatal InternalError. -/
def agentEnvFatal : AgentEnv :=
  { receiveResult := .ok [], decodeResult := .ok reqNoTests, joinErr := none,
    judgeOf := fun req =>
      (JudgeResult.InternalError "x").into_judge_response req.id,
    encodeErr := none, sendErr := none }

/-- Counterexample to C6 as stated: on a received frame that fails to
    decode, the loop iteration ends by propagating the error out of `main`
    with an **empty** list of sent responses — no InternalError response is
    emitted for that request. -/
theorem decode_failure_emits_nothing_cex :
    agentLoopStep agentEnvDecodeFail = .mainErr [] := rfl

/-- Claim C6 (amended): a decode failure of a received request frame
    terminates the agent by propagating the error out of `main`; no
    response is emitted for that request.  (Fatal InternalError responses
    arise only from judged requests; those are sent, then the agent exits
    with code 1.) -/
theorem decode_failure_no_response (env : AgentEnv) (bs : List Nat)
    (hrecv : env.receiveResult = .ok bs) :
    (∀ e, env.decodeResult = .error e → agentLoopStep env = .mainErr []) ∧
    (∀ req, env.decodeResult = .ok req → env.joinErr = none →
      env.encodeErr = none → env.sendErr = none →
      (env.judgeOf req).is_fatal_error.getD false = true →
      agentLoopStep env = .exitCode1 [env.judgeOf req]) := by
  constructor
  · intro e hdec
    simp [agentLoopStep, hrecv, hdec]
  · intro req hdec hjoin henc hsend hfatal
    simp [agentLoopStep, hrecv, hdec, hjoin, henc, hsend, hfatal]

/-- Witness for C6: both parts applied at concrete iterations. -/
theorem decode_failure_no_response_witness :
    agentLoopStep agentEnvDecodeFail = .mainErr [] ∧
    agentLoopStep agentEnvFatal =
      .exitCode1
        [(JudgeResult.InternalError "x").into_judge_response reqNoTests.id] :=
  ⟨(decode_failure_no_response agentEnvDecodeFail [0, 1, 2] rfl).1
      "postcard deserialize error" rfl,
   (decode_failure_no_response agentEnvFatal [] rfl).2
      reqNoTests rfl rfl rfl rfl rfl⟩

/-! ## Claim C9 -/

/-- A clean execute run whose child produced no output at all. -/
def execEnvPass : CppExecEnv :=
  { spawnErr := none, pid := some 7, cgroupBuildErr := none,
    addTaskErr := none, stdinWriteErr := none, deleteErr := none,
    timedOut := false, waitErr := none, fail_cnt := 0,
    max_usage_in_bytes := 100, status_code := { success := true },
    stdout := "", stderr := "",
    cpuStat := "usage_usec 1\nuser_usec 1\nsystem_usec 0", elapsed_ms := 7 }

/-- A handler running the modelled `CppHandler::execute` on `execEnvPass`;
    the Engine's stdout-limit argument lands in the source's single
    `output_limit_u8` position. -/
def hbPassEmpty : HandlerBehavior :=
  { needs_compile := false, prepare := .ok (), compile := .ok none,
    execute := fun _ _ _ mem so _ => cppExecute execEnvPass mem so,
    cleanup := .ok () }

/-- A request whose single test case expects empty output. -/
def reqEmptyExpected : JudgeRequest :=
  { id := 5, language := .Cpp, source_code := "",
    test_cases := [{ input_data := "", expected_output := "" }],
    limits := { time_ms := 1000, memory_kib := 65536 } }

/-- Like `hbPassEmpty` but the child wrote 1 stdout byte (`execEnvOle`). -/
def hbOleEmpty : HandlerBehavior :=
  { needs_compile := false, prepare := .ok (), compile := .ok none,
    execute := fun _ _ _ mem so _ => cppExecute execEnvOle mem so,
    cleanup := .ok () }

/-- A second request with a single empty-expected-output test case. -/
def reqOleEmpty : JudgeRequest :=
  { id := 6, language := .Cpp, source_code := "",
    test_cases := [{ input_data := "", expected_output := "" }],
    limits := { time_ms := 1000, memory_kib := 65536 } }

/-- Claim C9: with an empty `expected_output` the Engine computes a stdout
    limit of `0` bytes, so any run that reaches the output-length check
    having written at least one stdout byte fails OutputLimitExceeded
    before the output comparison; and a run that writes no stdout bytes
    can still pass the test (second conjunct: a full Accepted run). -/
theorem empty_expected_stdout_ole
    (env : CppExecEnv) (hb : HandlerBehavior) (req : JudgeRequest)
    (input : String) (p : Nat)
    (hcases : req.test_cases = [{ input_data := input, expected_output := "" }])
    (hprep : hb.prepare = .ok ()) (hnc : hb.needs_compile = false)
    (hexec : hb.execute = fun _ _ _ mem so _ => cppExecute env mem so)
    (hspawn : env.spawnErr = none) (hpid : env.pid = some p)
    (hcg : env.cgroupBuildErr = none) (hadd : env.addTaskErr = none)
    (hstdin : env.stdinWriteErr = none) (hdel : env.deleteErr = none)
    (htime : env.timedOut = false) (hwait : env.waitErr = none)
    (hfail : env.fail_cnt = 0)
    (hmem : env.max_usage_in_bytes ≤ req.limits.memory_kib * 1024)
    (hout : 1 ≤ env.stdout.utf8ByteSize) :
    judge hb req =
      some (JudgeResult.OutputLimitExceeded.into_judge_response req.id) ∧
    judge hbPassEmpty reqEmptyExpected =
      some ((JudgeResult.Accepted 1 7 1).into_judge_response 5) := by
  constructor
  · have hcpp : cppExecute env req.limits.memory_kib 0 =
        .error .OutputLimitExceeded := by
      unfold cppExecute
      rw [hspawn, hpid, hcg, hadd, hstdin, htime, hwait, hfail, hdel]
      dsimp only
      rw [if_neg (show ¬(false = true) by decide),
        if_neg (show ¬((0 : Nat) > 0) by decide),
        if_neg (not_lt.mpr hmem)]
      by_cases hse : env.stderr.utf8ByteSize > 0
      · rw [if_pos hse]
      · rw [if_neg hse, if_pos (Nat.lt_of_lt_of_le Nat.zero_lt_one hout)]
    unfold judge
    rw [hprep]
    dsimp only
    rw [hnc]
    simp only [Bool.false_eq_true, if_false]
    rw [hcases, judgeTests_cons, hexec]
    dsimp only
    rw [show (("" : String).utf8ByteSize * 2) = 0 from rfl, hcpp]
    rfl
  · decide

/-- Witness for C9: the OLE conclusion at the concrete run `execEnvOle`
    (1 stdout byte, empty expected output). -/
theorem empty_expected_stdout_ole_witness :
    judge hbOleEmpty reqOleEmpty =
      some (JudgeResult.OutputLimitExceeded.into_judge_response 6) :=
  (empty_expected_stdout_ole execEnvOle hbOleEmpty reqOleEmpty "" 42
    rfl rfl rfl rfl rfl rfl rfl rfl rfl rfl rfl rfl rfl
    (by decide) (by decide)).1

/-! ## Claim C1 -/

/-- The Unicode no-break space U+00A0: Rust `char::is_whitespace` holds for
    it, ASCII whitespace does not. -/
def nbsp : Char := Char.ofNat 0xA0

/-- A child stdout of `"a"` followed by U+00A0. -/
def nbspStdout : String := String.mk ['a', nbsp]

/-- A handler whose execution yields stdout `nbspStdout`, exit 0, zero
    usage. -/
def hbUnicodeTrim : HandlerBehavior :=
  { needs_compile := false, prepare := .ok (), compile := .ok none,
    execute := fun _ _ _ _ _ _ => .ok
      { status_code := { success := true }, stdout := nbspStdout,
        stderr := "",
        resource_usage := { memory_kib := 0, real_time_ms := 0,
                            cpu_time_ms := 0 } },
    cleanup := .ok () }

/-- A request expecting exactly `"a"`. -/
def reqUnicodeTrim : JudgeRequest :=
  { id := 1, language := .Cpp, source_code := "",
    test_cases := [{ input_data := "", expected_output := "a" }],
    limits := { time_ms := 1000, memory_kib := 65536 } }

/-- Counterexample to C1 as stated: the code trims with Rust `str::trim`
    (Unicode whitespace), not ASCII whitespace.  With actual stdout
    `"a" ++ U+00A0` and expected `"a"`, the ASCII-trimmed values differ —
    so the claim predicts WrongAnswer — yet the code trims the U+00A0 away
    and accepts the submission. -/
theorem engine_trim_unicode_cex :
    judge hbUnicodeTrim reqUnicodeTrim =
      some ((JudgeResult.Accepted 0 0 0).into_judge_response 1) ∧
    asciiTrim nbspStdout ≠ asciiTrim "a" ∧
    rustTrim nbspStdout = rustTrim "a" :=
  ⟨by decide, by decide, by decide⟩

/-- Claim C1 (amended: the output comparison trims Unicode whitespace —
    Rust `str::trim` — rather than ASCII whitespace only): per test the
    Engine's checks run in this order with the first match deciding —
    cpu-time over limit ⇒ TimeLimitExceeded; else memory over limit ⇒
    MemoryLimitExceeded; else non-success exit ⇒ RuntimeError with output
    formatted "Stdout:\n{stdout}\nStderr:\n{stderr}"; else trimmed output
    mismatch ⇒ WrongAnswer with both trimmed values — and each of those
    verdicts is returned immediately, independent of the remaining test
    cases, which therefore never run. -/
theorem engine_verdict_order (hb : HandlerBehavior) (limits : ResourceLimits)
    (reqId idx a b c : Nat) (case : TestCase) (rest : List TestCase)
    (r : ExecuteInfo)
    (hexec : hb.execute idx case.input_data limits.time_ms limits.memory_kib
      (case.expected_output.utf8ByteSize * 2) (128 * 1024) = .ok r) :
    (r.resource_usage.cpu_time_ms > limits.time_ms →
      judgeTests hb limits reqId (case :: rest) idx a b c =
        JudgeResult.TimeLimitExceeded.into_judge_response reqId) ∧
    (r.resource_usage.cpu_time_ms ≤ limits.time_ms →
     r.resource_usage.memory_kib > limits.memory_kib →
      judgeTests hb limits reqId (case :: rest) idx a b c =
        JudgeResult.MemoryLimitExceeded.into_judge_response reqId) ∧
    (r.resource_usage.cpu_time_ms ≤ limits.time_ms →
     r.resource_usage.memory_kib ≤ limits.memory_kib →
     r.status_code.success = false →
      judgeTests hb limits reqId (case :: rest) idx a b c =
        (JudgeResult.RuntimeError
          ("Stdout:\n" ++ r.stdout ++ "\nStderr:\n" ++ r.stderr)
          "Non-zero exit code").into_judge_response reqId) ∧
    (r.resource_usage.cpu_time_ms ≤ limits.time_ms →
     r.resource_usage.memory_kib ≤ limits.memory_kib →
     r.status_code.success = true →
     rustTrim case.expected_output ≠ rustTrim r.stdout →
      judgeTests hb limits reqId (case :: rest) idx a b c =
        (JudgeResult.WrongAnswer (rustTrim case.expected_output)
          (rustTrim r.stdout)).into_judge_response reqId) ∧
    (r.resource_usage.cpu_time_ms ≤ limits.time_ms →
     r.resource_usage.memory_kib ≤ limits.memory_kib →
     r.status_code.success = true →
     rustTrim case.expected_output = rustTrim r.stdout →
      judgeTests hb limits reqId (case :: rest) idx a b c =
        judgeTests hb limits reqId rest (idx + 1)
          (max a r.resource_usage.cpu_time_ms)
          (max b r.resource_usage.real_time_ms)
          (max c r.resource_usage.memory_kib)) := by
  rw [judgeTests_cons, hexec]
  dsimp only
  refine ⟨?_, ?_, ?_, ?_, ?_⟩
  · intro h1
    rw [if_pos h1]
  · intro h1 h2
    rw [if_neg (not_lt.mpr h1), if_pos h2]
  · intro h1 h2 h3
    rw [if_neg (not_lt.mpr h1), if_neg (not_lt.mpr h2), h3]
    rfl
  · intro h1 h2 h3 h4
    rw [if_neg (not_lt.mpr h1), if_neg (not_lt.mpr h2), h3]
    simp only [Bool.not_true, Bool.false_eq_true, if_false]
    rw [if_pos h4]
  · intro h1 h2 h3 h4
    rw [if_neg (not_lt.mpr h1), if_neg (not_lt.mpr h2), h3]
    simp only [Bool.not_true, Bool.false_eq_true, if_false]
    rw [if_neg (by simpa using h4)]

/-- Execution outcome exceeding the 1000 ms cpu limit. -/
def tleInfo : ExecuteInfo :=
  { status_code := { success := true }, stdout := "", stderr := "",
    resource_usage := { memory_kib := 0, real_time_ms := 0,
                        cpu_time_ms := 2000 } }

/-- A handler behavior whose execution reports 2000 ms of cpu time. -/
def hbTle : HandlerBehavior :=
  { needs_compile := false, prepare := .ok (), compile := .ok none,
    execute := fun _ _ _ _ _ _ => .ok tleInfo, cleanup := .ok () }

/-- Witness for C1: the first (time-limit) branch at a concrete run. -/
theorem engine_verdict_order_witness :
    judgeTests hbTle { time_ms := 1000, memory_kib := 65536 } 9
      [{ input_data := "", expected_output := "" }] 0 0 0 0 =
      JudgeResult.TimeLimitExceeded.into_judge_response 9 :=
  (engine_verdict_order hbTle { time_ms := 1000, memory_kib := 65536 } 9
    0 0 0 0 { input_data := "", expected_output := "" } [] tleInfo
    rfl).1 (by decide)

/-! ## Claim C3 -/

/-- Unfolding equation: `judgeTestsReachCleanup` on a cons cell. -/
lemma judgeTestsReachCleanup_cons (hb : HandlerBehavior)
    (limits : ResourceLimits) (idx : Nat) (case : TestCase)
    (rest : List TestCase) :
    judgeTestsReachCleanup hb limits (case :: rest) idx =
      (match hb.execute idx case.input_data limits.time_ms limits.memory_kib
          (case.expected_output.utf8ByteSize * 2) (128 * 1024) with
       | .error _ => false
       | .ok result =>
         if result.resource_usage.cpu_time_ms > limits.time_ms then false
         else if result.resource_usage.memory_kib > limits.memory_kib then
           false
         else if !result.status_code.success then false
         else if rustTrim case.expected_output ≠ rustTrim result.stdout then
           false
         else judgeTestsReachCleanup hb limits rest (idx + 1)) := rfl

/-- When the cleanup site is reached and cleanup fails, the loop's verdict
    is the converted cleanup error, whatever the accumulators hold. -/
lemma judgeTests_of_reachCleanup (hb : HandlerBehavior)
    (limits : ResourceLimits) (reqId : Nat) (e : HandlerError)
    (hclean : hb.cleanup = .error e) :
    ∀ (cases : List TestCase) (idx : Nat),
      judgeTestsReachCleanup hb limits cases idx = true →
      ∀ a b c, judgeTests hb limits reqId cases idx a b c =
        e.toJudgeResult.into_judge_response reqId := by
  intro cases
  induction cases with
  | nil => intro idx _ a b c; rw [judgeTests_nil, hclean]
  | cons case rest ih =>
    intro idx hreach a b c
    rw [judgeTestsReachCleanup_cons] at hreach
    rw [judgeTests_cons]
    cases hexec : hb.execute idx case.input_data limits.time_ms
        limits.memory_kib (case.expected_output.utf8ByteSize * 2)
        (128 * 1024) with
    | error e => rw [hexec] at hreach; simp at hreach
    | ok r =>
      rw [hexec] at hreach
      dsimp only at hreach ⊢
      by_cases h1 : r.resource_usage.cpu_time_ms > limits.time_ms
      · rw [if_pos h1] at hreach; simp at hreach
      · rw [if_neg h1] at hreach ⊢
        by_cases h2 : r.resource_usage.memory_kib > limits.memory_kib
        · rw [if_pos h2] at hreach; simp at hreach
        · rw [if_neg h2] at hreach ⊢
          by_cases h3 : (!r.status_code.success) = true
          · rw [if_pos h3] at hreach; simp at hreach
          · rw [if_neg h3] at hreach ⊢
            by_cases h4 : rustTrim case.expected_output ≠ rustTrim r.stdout
            · rw [if_pos h4] at hreach; simp at hreach
            · rw [if_neg h4] at hreach ⊢
              exact ih (idx + 1) hreach _ _ _

/-- An `Accepted` verdict from the loop forces the cleanup site to have
    been reached with a successful cleanup. -/
lemma judgeTests_accepted_reach (hb : HandlerBehavior)
    (limits : ResourceLimits) (reqId : Nat) :
    ∀ (cases : List TestCase) (idx a b c cpu rt mm : Nat),
      judgeTests hb limits reqId cases idx a b c =
        (JudgeResult.Accepted cpu rt mm).into_judge_response reqId →
      judgeTestsReachCleanup hb limits cases idx = true ∧
        hb.cleanup = .ok () := by
  intro cases
  induction cases with
  | nil =>
    intro idx a b c cpu rt mm h
    rw [judgeTests_nil] at h
    cases hcl : hb.cleanup with
    | error e =>
      rw [hcl] at h
      exact absurd (into_judge_response_inj h)
        (toJudgeResult_ne_Accepted e cpu rt mm)
    | ok u => exact ⟨rfl, rfl⟩
  | cons case rest ih =>
    intro idx a b c cpu rt mm h
    rw [judgeTests_cons] at h
    rw [judgeTestsReachCleanup_cons]
    cases hexec : hb.execute idx case.input_data limits.time_ms
        limits.memory_kib (case.expected_output.utf8ByteSize * 2)
        (128 * 1024) with
    | error e =>
      rw [hexec] at h
      exact absurd (into_judge_response_inj h)
        (toJudgeResult_ne_Accepted e cpu rt mm)
    | ok r =>
      rw [hexec] at h
      dsimp only at h ⊢
      by_cases h1 : r.resource_usage.cpu_time_ms > limits.time_ms
      · rw [if_pos h1] at h
        exact absurd (into_judge_response_inj h) (by simp)
      · rw [if_neg h1] at h ⊢
        by_cases h2 : r.resource_usage.memory_kib > limits.memory_kib
        · rw [if_pos h2] at h
          exact absurd (into_judge_response_inj h) (by simp)
        · rw [if_neg h2] at h ⊢
          by_cases h3 : (!r.status_code.success) = true
          · rw [if_pos h3] at h
            exact absurd (into_judge_response_inj h) (by simp)
          · rw [if_neg h3] at h ⊢
            by_cases h4 : rustTrim case.expected_output ≠ rustTrim r.stdout
            · rw [if_pos h4] at h
              exact absurd (into_judge_response_inj h) (by simp)
            · rw [if_neg h4] at h ⊢
              exact ih (idx + 1) _ _ _ cpu rt mm h

/-- A `WrongAnswer` verdict from the loop means the cleanup site was not
    reached. -/
lemma judgeTests_wrongAnswer_not_reach (hb : HandlerBehavior)
    (limits : ResourceLimits) (reqId : Nat) :
    ∀ (cases : List TestCase) (idx a b c : Nat) (x y : String),
      judgeTests hb limits reqId cases idx a b c =
        (JudgeResult.WrongAnswer x y).into_judge_response reqId →
      judgeTestsReachCleanup hb limits cases idx = false := by
  intro cases
  induction cases with
  | nil =>
    intro idx a b c x y h
    rw [judgeTests_nil] at h
    cases hcl : hb.cleanup with
    | error e =>
      rw [hcl] at h
      exact absurd (into_judge_response_inj h)
        (toJudgeResult_ne_WrongAnswer e x y)
    | ok u =>
      rw [hcl] at h
      exact absurd (into_judge_response_inj h) (by simp)
  | cons case rest ih =>
    intro idx a b c x y h
    rw [judgeTests_cons] at h
    rw [judgeTestsReachCleanup_cons]
    cases hexec : hb.execute idx case.input_data limits.time_ms
        limits.memory_kib (case.expected_output.utf8ByteSize * 2)
        (128 * 1024) with
    | error e => rfl
    | ok r =>
      rw [hexec] at h
      dsimp only at h ⊢
      by_cases h1 : r.resource_usage.cpu_time_ms > limits.time_ms
      · rw [if_pos h1]
      · rw [if_neg h1] at h ⊢
        by_cases h2 : r.resource_usage.memory_kib > limits.memory_kib
        · rw [if_pos h2]
        · rw [if_neg h2] at h ⊢
          by_cases h3 : (!r.status_code.success) = true
          · rw [if_pos h3]
          · rw [if_neg h3] at h ⊢
            by_cases h4 : rustTrim case.expected_output ≠ rustTrim r.stdout
            · rw [if_pos h4]
            · rw [if_neg h4] at h ⊢
              exact ih (idx + 1) _ _ _ x y h

/-- If a `judge` response's result is neither a converted handler error nor
    a `CompilationError`, it was produced by the test loop. -/
lemma judge_result_from_tests (hb : HandlerBehavior) (req : JudgeRequest)
    (resp : JudgeResponse) (h : judge hb req = some resp)
    (hne : ∀ e : HandlerError, resp.result ≠ e.toJudgeResult)
    (hnc : ∀ m, resp.result ≠ .CompilationError m) :
    judgeTests hb req.limits req.id req.test_cases 0 0 0 0 = resp ∧
    (hb.needs_compile = true →
      ∃ ci, hb.compile = .ok (some ci) ∧ ci.status_code.success = true) ∧
    hb.prepare = .ok () := by
  unfold judge at h
  cases hp : hb.prepare with
  | error e =>
    rw [hp] at h
    exact absurd (congrArg JudgeResponse.result (Option.some_inj.mp h).symm)
      (hne e)
  | ok u =>
    rw [hp] at h
    dsimp only at h
    cases u
    by_cases hb_nc : hb.needs_compile = true
    · rw [if_pos hb_nc] at h
      cases hc : hb.compile with
      | error e =>
        rw [hc] at h
        exact absurd
          (congrArg JudgeResponse.result (Option.some_inj.mp h).symm) (hne e)
      | ok oci =>
        rw [hc] at h
        cases oci with
        | none => simp at h
        | some ci =>
          dsimp only at h
          cases hs : ci.status_code.success with
          | false =>
            rw [hs] at h
            simp only [Bool.not_false, if_true] at h
            exact absurd
              (congrArg JudgeResponse.result (Option.some_inj.mp h).symm)
              (hnc _)
          | true =>
            rw [hs] at h
            simp only [Bool.not_true, Bool.false_eq_true, if_false] at h
            exact ⟨Option.some_inj.mp h, fun _ => ⟨ci, rfl, hs⟩, rfl⟩
    · rw [if_neg hb_nc] at h
      exact ⟨Option.some_inj.mp h, fun hcon => absurd hcon hb_nc, rfl⟩

/-- A handler whose cleanup fails while a test produces a wrong answer. -/
def hbCleanupErr : HandlerBehavior :=
  { needs_compile := false, prepare := .ok (), compile := .ok none,
    execute := fun _ _ _ _ _ _ => .ok
      { status_code := { success := true }, stdout := "x", stderr := "",
        resource_usage := { memory_kib := 0, real_time_ms := 0,
                            cpu_time_ms := 0 } },
    cleanup := .error (.IoError "boom") }

/-- A request whose single test expects `"y"`. -/
def reqWa : JudgeRequest :=
  { id := 2, language := .Cpp, source_code := "",
    test_cases := [{ input_data := "", expected_output := "y" }],
    limits := { time_ms := 1000, memory_kib := 65536 } }

/-- Counterexample to C3 as stated: on a WrongAnswer path the cleanup call
    site is never reached — the response is WrongAnswer even though cleanup
    would fail with an I/O error (which, were cleanup invoked, would
    surface as InternalError). -/
theorem cleanup_skipped_on_wrong_answer_cex :
    judge hbCleanupErr reqWa =
      some ((JudgeResult.WrongAnswer "y" "x").into_judge_response 2) ∧
    cleanupInvoked hbCleanupErr reqWa = false :=
  ⟨by decide, by decide⟩

/-- Claim C3 (amended): `handler.cleanup` is invoked only on the path where
    every test passes: an Accepted response implies the cleanup site was
    reached and cleanup succeeded; when the site is reached and cleanup
    fails with an I/O error the response is InternalError (superseding the
    otherwise Accepted verdict); and on a WrongAnswer path the cleanup site
    is never reached. -/
theorem cleanup_only_on_all_pass :
    (∀ (hb : HandlerBehavior) (req : JudgeRequest) (resp : JudgeResponse)
       (cpu rt mm : Nat), judge hb req = some resp →
       resp.result = .Accepted cpu rt mm →
       cleanupInvoked hb req = true ∧ hb.cleanup = .ok ()) ∧
    (∀ (hb : HandlerBehavior) (req : JudgeRequest) (m : String),
       cleanupInvoked hb req = true →
       hb.cleanup = .error (.IoError m) →
       judge hb req =
         some ((JudgeResult.InternalError m).into_judge_response req.id)) ∧
    (∀ (hb : HandlerBehavior) (req : JudgeRequest) (resp : JudgeResponse)
       (x y : String), judge hb req = some resp →
       resp.result = .WrongAnswer x y →
       cleanupInvoked hb req = false) := by
  refine ⟨?_, ?_, ?_⟩
  · intro hb req resp cpu rt mm h hres
    obtain ⟨jr, rfl⟩ := judge_isInto hb req resp h
    rw [into_judge_response_result] at hres
    subst hres
    obtain ⟨hjt, hcomp, hprep⟩ := judge_result_from_tests hb req _ h
      (fun e => (toJudgeResult_ne_Accepted e cpu rt mm).symm)
      (fun m => by rw [into_judge_response_result]; simp)
    obtain ⟨hreach, hclean⟩ :=
      judgeTests_accepted_reach hb req.limits req.id req.test_cases
        0 0 0 0 cpu rt mm hjt
    refine ⟨?_, hclean⟩
    unfold cleanupInvoked
    rw [hprep]
    dsimp only
    by_cases hb_nc : hb.needs_compile = true
    · obtain ⟨ci, hc, hs⟩ := hcomp hb_nc
      rw [if_pos hb_nc, hc]
      dsimp only
      rw [hs]
      simpa using hreach
    · rw [if_neg hb_nc]
      exact hreach
  · intro hb req m hinv hclean
    unfold cleanupInvoked at hinv
    cases hp : hb.prepare with
    | error e => rw [hp] at hinv; simp at hinv
    | ok u =>
      cases u
      rw [hp] at hinv
      dsimp only at hinv
      have hjt : ∀ hr : judgeTestsReachCleanup hb req.limits
          req.test_cases 0 = true,
          judgeTests hb req.limits req.id req.test_cases 0 0 0 0 =
            (JudgeResult.InternalError m).into_judge_response req.id := by
        intro hr
        rw [judgeTests_of_reachCleanup hb req.limits req.id _ hclean
          req.test_cases 0 hr 0 0 0]
        rfl
      unfold judge
      rw [hp]
      dsimp only
      by_cases hb_nc : hb.needs_compile = true
      · rw [if_pos hb_nc] at hinv ⊢
        cases hc : hb.compile with
        | error e => rw [hc] at hinv; simp at hinv
        | ok oci =>
          rw [hc] at hinv
          cases oci with
          | none => simp at hinv
          | some ci =>
            dsimp only at hinv ⊢
            cases hs : ci.status_code.success with
            | false => rw [hs] at hinv; simp at hinv
            | true =>
              rw [hs] at hinv
              simp only [Bool.not_true, Bool.false_eq_true, if_false]
                at hinv ⊢
              rw [hjt hinv]
      · rw [if_neg hb_nc] at hinv ⊢
        rw [hjt hinv]
  · intro hb req resp x y h hres
    obtain ⟨jr, rfl⟩ := judge_isInto hb req resp h
    rw [into_judge_response_result] at hres
    subst hres
    obtain ⟨hjt, hcomp, hprep⟩ := judge_result_from_tests hb req _ h
      (fun e => (toJudgeResult_ne_WrongAnswer e x y).symm)
      (fun m => by rw [into_judge_response_result]; simp)
    have hreach := judgeTests_wrongAnswer_not_reach hb req.limits req.id
      req.test_cases 0 0 0 0 x y hjt
    unfold cleanupInvoked
    rw [hprep]
    dsimp only
    by_cases hb_nc : hb.needs_compile = true
    · obtain ⟨ci, hc, hs⟩ := hcomp hb_nc
      rw [if_pos hb_nc, hc]
      dsimp only
      rw [hs]
      simpa using hreach
    · rw [if_neg hb_nc]
      exact hreach

/-- Witness for C3: the Accepted part at a concrete trivially passing
    run. -/
theorem cleanup_only_on_all_pass_witness :
    cleanupInvoked hbTrivial reqNoTests = true ∧
    hbTrivial.cleanup = .ok () :=
  cleanup_only_on_all_pass.1 hbTrivial reqNoTests
    ((JudgeResult.Accepted 0 0 0).into_judge_response 3) 0 0 0 rfl rfl

/-! ## Claim C5 -/

/-- When the loop ends Accepted, the reported triple is the fold of `max`
    over the per-test usages, starting from the accumulators. -/
lemma judgeTests_accepted_maxima (hb : HandlerBehavior)
    (limits : ResourceLimits) (reqId : Nat) :
    ∀ (cases : List TestCase) (infos : List ExecuteInfo)
      (idx a b c cpu rt mm : Nat),
      infos.length = cases.length →
      (∀ (j : Nat) (hj1 : j < cases.length) (hj2 : j < infos.length),
        hb.execute (idx + j) ((cases.get ⟨j, hj1⟩).input_data)
          limits.time_ms limits.memory_kib
          (((cases.get ⟨j, hj1⟩).expected_output).utf8ByteSize * 2)
          (128 * 1024) = .ok (infos.get ⟨j, hj2⟩)) →
      judgeTests hb limits reqId cases idx a b c =
        (JudgeResult.Accepted cpu rt mm).into_judge_response reqId →
      cpu = (infos.map
        (fun i => i.resource_usage.cpu_time_ms)).foldl max a ∧
      rt = (infos.map
        (fun i => i.resource_usage.real_time_ms)).foldl max b ∧
      mm = (infos.map
        (fun i => i.resource_usage.memory_kib)).foldl max c := by
  intro cases
  induction cases with
  | nil =>
    intro infos idx a b c cpu rt mm hlen hx h
    have hinfos : infos = [] := List.length_eq_zero.mp hlen
    subst hinfos
    rw [judgeTests_nil] at h
    cases hcl : hb.cleanup with
    | error e =>
      rw [hcl] at h
      exact absurd (into_judge_response_inj h)
        (toJudgeResult_ne_Accepted e cpu rt mm)
    | ok u =>
      rw [hcl] at h
      have heq := into_judge_response_inj h
      injection heq with e1 e2 e3
      exact ⟨e1.symm, e2.symm, e3.symm⟩
  | cons case rest ih =>
    intro infos idx a b c cpu rt mm hlen hx h
    cases infos with
    | nil => simp at hlen
    | cons i infos' =>
      have hx0 : hb.execute idx case.input_data limits.time_ms
          limits.memory_kib (case.expected_output.utf8ByteSize * 2)
          (128 * 1024) = .ok i := by
        have hstep := hx 0 (Nat.succ_pos _) (Nat.succ_pos _)
        rw [Nat.add_zero] at hstep
        exact hstep
      rw [judgeTests_cons, hx0] at h
      dsimp only at h
      by_cases h1 : i.resource_usage.cpu_time_ms > limits.time_ms
      · rw [if_pos h1] at h
        exact absurd (into_judge_response_inj h) (by simp)
      · rw [if_neg h1] at h
        by_cases h2 : i.resource_usage.memory_kib > limits.memory_kib
        · rw [if_pos h2] at h
          exact absurd (into_judge_response_inj h) (by simp)
        · rw [if_neg h2] at h
          by_cases h3 : (!i.status_code.success) = true
          · rw [if_pos h3] at h
            exact absurd (into_judge_response_inj h) (by simp)
          · rw [if_neg h3] at h
            by_cases h4 : rustTrim case.expected_output ≠ rustTrim i.stdout
            · rw [if_pos h4] at h
              exact absurd (into_judge_response_inj h) (by simp)
            · rw [if_neg h4] at h
              have hlen' : infos'.length = rest.length := by simpa using hlen
              have hx' : ∀ (j : Nat) (hj1 : j < rest.length)
                  (hj2 : j < infos'.length),
                  hb.execute (idx + 1 + j) ((rest.get ⟨j, hj1⟩).input_data)
                    limits.time_ms limits.memory_kib
                    (((rest.get ⟨j, hj1⟩).expected_output).utf8ByteSize * 2)
                    (128 * 1024) = .ok (infos'.get ⟨j, hj2⟩) := by
                intro j hj1 hj2
                have hstep := hx (j + 1) (Nat.succ_lt_succ hj1)
                  (Nat.succ_lt_succ hj2)
                have heq : idx + (j + 1) = idx + 1 + j := by omega
                rw [heq] at hstep
                exact hstep
              exact ih infos' (idx + 1)
                (max a i.resource_usage.cpu_time_ms)
                (max b i.resource_usage.real_time_ms)
                (max c i.resource_usage.memory_kib)
                cpu rt mm hlen' hx' h

/-- The Accepted triple stays within the limits provided the accumulators
    do. -/
lemma judgeTests_accepted_le (hb : HandlerBehavior)
    (limits : ResourceLimits) (reqId : Nat) :
    ∀ (cases : List TestCase) (idx a b c cpu rt mm : Nat),
      a ≤ limits.time_ms → c ≤ limits.memory_kib →
      judgeTests hb limits reqId cases idx a b c =
        (JudgeResult.Accepted cpu rt mm).into_judge_response reqId →
      cpu ≤ limits.time_ms ∧ mm ≤ limits.memory_kib := by
  intro cases
  induction cases with
  | nil =>
    intro idx a b c cpu rt mm ha hc h
    rw [judgeTests_nil] at h
    cases hcl : hb.cleanup with
    | error e =>
      rw [hcl] at h
      exact absurd (into_judge_response_inj h)
        (toJudgeResult_ne_Accepted e cpu rt mm)
    | ok u =>
      rw [hcl] at h
      have heq := into_judge_response_inj h
      injection heq with e1 e2 e3
      exact ⟨e1 ▸ ha, e3 ▸ hc⟩
  | cons case rest ih =>
    intro idx a b c cpu rt mm ha hc h
    rw [judgeTests_cons] at h
    cases hexec : hb.execute idx case.input_data limits.time_ms
        limits.memory_kib (case.expected_output.utf8ByteSize * 2)
        (128 * 1024) with
    | error e =>
      rw [hexec] at h
      exact absurd (into_judge_response_inj h)
        (toJudgeResult_ne_Accepted e cpu rt mm)
    | ok r =>
      rw [hexec] at h
      dsimp only at h
      by_cases h1 : r.resource_usage.cpu_time_ms > limits.time_ms
      · rw [if_pos h1] at h
        exact absurd (into_judge_response_inj h) (by simp)
      · rw [if_neg h1] at h
        by_cases h2 : r.resource_usage.memory_kib > limits.memory_kib
        · rw [if_pos h2] at h
          exact absurd (into_judge_response_inj h) (by simp)
        · rw [if_neg h2] at h
          by_cases h3 : (!r.status_code.success) = true
          · rw [if_pos h3] at h
            exact absurd (into_judge_response_inj h) (by simp)
          · rw [if_neg h3] at h
            by_cases h4 : rustTrim case.expected_output ≠ rustTrim r.stdout
            · rw [if_pos h4] at h
              exact absurd (into_judge_response_inj h) (by simp)
            · rw [if_neg h4] at h
              exact ih (idx + 1) _ _ _ cpu rt mm
                (max_le ha (not_lt.mp h1)) (max_le hc (not_lt.mp h2)) h

/-- A handler whose prepare fails with an I/O error. -/
def hbPrepFail : HandlerBehavior :=
  { needs_compile := true, prepare := .error (.IoError "disk full"),
    compile := .ok none,
    execute := fun _ _ _ _ _ _ => .ok okExecInfo, cleanup := .ok () }

/-- A second request with an empty list of test cases. -/
def reqNoTests7 : JudgeRequest :=
  { id := 7, language := .Cpp, source_code := "",
    test_cases := [], limits := { time_ms := 1000, memory_kib := 65536 } }

/-- Counterexample to C5 as stated: a request with an empty `test_cases`
    list does **not** unconditionally yield Accepted — if `prepare` fails,
    the verdict is InternalError. -/
theorem empty_tests_not_unconditional_cex :
    judge hbPrepFail reqNoTests7 =
      some ((JudgeResult.InternalError "disk full").into_judge_response 7) ∧
    JudgeResult.InternalError "disk full" ≠ JudgeResult.Accepted 0 0 0 :=
  ⟨rfl, by decide⟩

/-- Claim C5 (amended: the empty-test-case clause additionally requires
    prepare, compile — when needed, with a successful compiler exit — and
    cleanup to succeed): an Accepted verdict reports the per-submission
    maxima (fold of `max` from 0) of the per-test cpu-time, real-time and
    memory; Accepted values satisfy `cpu ≤ limits.time_ms` and
    `mem ≤ limits.memory_kib`; and an empty `test_cases` list with
    succeeding prepare/compile/cleanup yields `Accepted{0,0,0}`. -/
theorem accepted_maxima_bounds_empty :
    (∀ (hb : HandlerBehavior) (req : JudgeRequest)
       (infos : List ExecuteInfo) (resp : JudgeResponse) (cpu rt mm : Nat),
       infos.length = req.test_cases.length →
       (∀ (j : Nat) (hj1 : j < req.test_cases.length)
          (hj2 : j < infos.length),
         hb.execute j ((req.test_cases.get ⟨j, hj1⟩).input_data)
           req.limits.time_ms req.limits.memory_kib
           (((req.test_cases.get ⟨j, hj1⟩).expected_output).utf8ByteSize * 2)
           (128 * 1024) = .ok (infos.get ⟨j, hj2⟩)) →
       judge hb req = some resp →
       resp.result = .Accepted cpu rt mm →
       cpu = (infos.map
         (fun i => i.resource_usage.cpu_time_ms)).foldl max 0 ∧
       rt = (infos.map
         (fun i => i.resource_usage.real_time_ms)).foldl max 0 ∧
       mm = (infos.map
         (fun i => i.resource_usage.memory_kib)).foldl max 0) ∧
    (∀ (hb : HandlerBehavior) (req : JudgeRequest) (resp : JudgeResponse)
       (cpu rt mm : Nat), judge hb req = some resp →
       resp.result = .Accepted cpu rt mm →
       cpu ≤ req.limits.time_ms ∧ mm ≤ req.limits.memory_kib) ∧
    (∀ (hb : HandlerBehavior) (req : JudgeRequest),
       req.test_cases = [] → hb.prepare = .ok () →
       (hb.needs_compile = true → ∃ ci, hb.compile = .ok (some ci) ∧
         ci.status_code.success = true) →
       hb.cleanup = .ok () →
       judge hb req =
         some ((JudgeResult.Accepted 0 0 0).into_judge_response req.id)) := by
  refine ⟨?_, ?_, ?_⟩
  · intro hb req infos resp cpu rt mm hlen hx h hres
    obtain ⟨jr, rfl⟩ := judge_isInto hb req resp h
    rw [into_judge_response_result] at hres
    subst hres
    obtain ⟨hjt, hcomp, hprep⟩ := judge_result_from_tests hb req _ h
      (fun e => (toJudgeResult_ne_Accepted e cpu rt mm).symm)
      (fun m => by rw [into_judge_response_result]; simp)
    exact judgeTests_accepted_maxima hb req.limits req.id req.test_cases
      infos 0 0 0 0 cpu rt mm hlen
      (fun j hj1 hj2 => by
        have hstep := hx j hj1 hj2
        rw [Nat.zero_add]
        exact hstep) hjt
  · intro hb req resp cpu rt mm h hres
    obtain ⟨jr, rfl⟩ := judge_isInto hb req resp h
    rw [into_judge_response_result] at hres
    subst hres
    obtain ⟨hjt, hcomp, hprep⟩ := judge_result_from_tests hb req _ h
      (fun e => (toJudgeResult_ne_Accepted e cpu rt mm).symm)
      (fun m => by rw [into_judge_response_result]; simp)
    exact judgeTests_accepted_le hb req.limits req.id req.test_cases
      0 0 0 0 cpu rt mm (Nat.zero_le _) (Nat.zero_le _) hjt
  · intro hb req hcases hprep hcomp hclean
    unfold judge
    rw [hprep]
    dsimp only
    by_cases hb_nc : hb.needs_compile = true
    · obtain ⟨ci, hc, hs⟩ := hcomp hb_nc
      rw [if_pos hb_nc, hc]
      dsimp only
      rw [hs]
      simp only [Bool.not_true, Bool.false_eq_true, if_false]
      rw [hcases, judgeTests_nil, hclean]
    · rw [if_neg hb_nc, hcases, judgeTests_nil, hclean]

/-- Witness for C5: the empty-test-case clause at a concrete trivially
    succeeding handler. -/
theorem accepted_maxima_bounds_empty_witness :
    judge hbTrivial reqNoTests =
      some ((JudgeResult.Accepted 0 0 0).into_judge_response reqNoTests.id) :=
  accepted_maxima_bounds_empty.2.2 hbTrivial reqNoTests rfl rfl
    (fun hcon => nomatch hcon) rfl

/-! ## Claim C7 -/

/-- The first whitespace-separated token of a line (`""` if none). -/
def firstTok (l : String) : String := (rustSplitWhitespace l).getD 0 ""

/-- A line is well-formed for the parser: exactly two tokens, the second
    parsing as `u64`. -/
def lineOk (l : String) : Bool :=
  match rustSplitWhitespace l with
  | [_, v] => (parseU64 v).isSome
  | _ => false

/-- The key appears as the first token of some line of `s`. -/
def keyPresent (s k : String) : Bool :=
  (rustLines s).any (fun l => firstTok l == k)

lemma statsGet_insert (acc : List (String × Nat)) (k key : String)
    (v : Nat) :
    statsGet (statsInsert acc k v) key =
      if k == key then some v else statsGet acc key := by
  by_cases hk : (k == key) = true
  · simp [statsGet, statsInsert, List.find?, hk]
  · simp only [Bool.not_eq_true] at hk
    simp [statsGet, statsInsert, List.find?, hk]

/-- The loop `buildStats` succeeds exactly when every line is well-formed. -/
lemma buildStats_ok_iff :
    ∀ (lines : List String) (acc : List (String × Nat)),
      (∃ st, buildStats lines acc = .ok st) ↔ lines.all lineOk = true := by
  intro lines
  induction lines with
  | nil => intro acc; simp [buildStats]
  | cons line rest ih =>
    intro acc
    simp only [List.all_cons, Bool.and_eq_true]
    rcases hsp : rustSplitWhitespace line with _ | ⟨k, _ | ⟨v, _ | ⟨w, tl⟩⟩⟩
    · simp [buildStats, hsp, lineOk]
    · simp [buildStats, hsp, lineOk]
    · cases hpv : parseU64 v with
      | none => simp [buildStats, hsp, hpv, lineOk]
      | some n =>
        simp only [buildStats, hsp, hpv, lineOk]
        rw [ih]
        simp
    · simp [buildStats, hsp, lineOk]

/-- A key is bound after `buildStats` iff some processed line starts with
    it or it was bound in the accumulator. -/
lemma buildStats_keys :
    ∀ (lines : List String) (acc st : List (String × Nat)),
      buildStats lines acc = .ok st → ∀ k,
      (statsGet st k).isSome =
        (lines.any (fun l => firstTok l == k) ||
          (statsGet acc k).isSome) := by
  intro lines
  induction lines with
  | nil =>
    intro acc st h k
    simp only [buildStats] at h
    cases h
    simp
  | cons line rest ih =>
    intro acc st h k
    rcases hsp : rustSplitWhitespace line with _ | ⟨k0, _ | ⟨v, _ | ⟨w, tl⟩⟩⟩ <;>
      simp only [buildStats, hsp] at h
    · cases h
    · cases h
    · cases hpv : parseU64 v with
      | none => rw [hpv] at h; cases h
      | some n =>
        rw [hpv] at h
        have hrec := ih (statsInsert acc k0 n) st h k
        rw [hrec, statsGet_insert]
        simp only [List.any_cons]
        have hft : firstTok line = k0 := by simp [firstTok, hsp]
        rw [hft]
        by_cases hk : (k0 == k) = true
        · simp [hk]
        · simp only [Bool.not_eq_true] at hk
          simp [hk]
    · cases h

/-- An `InvalidRow` error names a processed line that does not have exactly
    two tokens. -/
lemma buildStats_invalidRow :
    ∀ (lines : List String) (acc : List (String × Nat)) (l : String),
      buildStats lines acc = .error (.InvalidRow l) →
      l ∈ lines ∧ (rustSplitWhitespace l).length ≠ 2 := by
  intro lines
  induction lines with
  | nil => intro acc l h; simp [buildStats] at h
  | cons line rest ih =>
    intro acc l h
    rcases hsp : rustSplitWhitespace line with _ | ⟨k0, _ | ⟨v, _ | ⟨w, tl⟩⟩⟩ <;>
      simp only [buildStats, hsp] at h
    · cases h
      exact ⟨List.mem_cons_self _ _, by rw [hsp]; simp⟩
    · cases h
      exact ⟨List.mem_cons_self _ _, by rw [hsp]; simp⟩
    · cases hpv : parseU64 v with
      | none => rw [hpv] at h; cases h
      | some n =>
        rw [hpv] at h
        obtain ⟨hmem, hlen⟩ := ih (statsInsert acc k0 n) l h
        exact ⟨List.mem_cons_of_mem _ hmem, hlen⟩
    · cases h
      exact ⟨List.mem_cons_self _ _, by rw [hsp]; simp⟩

/-- An `InvalidNumber` error names the unparsable second token of a
    processed two-token line. -/
lemma buildStats_invalidNumber :
    ∀ (lines : List String) (acc : List (String × Nat)) (t : String),
      buildStats lines acc = .error (.InvalidNumber t) →
      parseU64 t = none ∧
        ∃ l ∈ lines, rustSplitWhitespace l = [firstTok l, t] := by
  intro lines
  induction lines with
  | nil => intro acc t h; simp [buildStats] at h
  | cons line rest ih =>
    intro acc t h
    rcases hsp : rustSplitWhitespace line with _ | ⟨k0, _ | ⟨v, _ | ⟨w, tl⟩⟩⟩ <;>
      simp only [buildStats, hsp] at h
    · cases h
    · cases h
    · cases hpv : parseU64 v with
      | none =>
        rw [hpv] at h
        cases h
        refine ⟨hpv, line, List.mem_cons_self _ _, ?_⟩
        rw [hsp]
        simp [firstTok, hsp]
      | some n =>
        rw [hpv] at h
        obtain ⟨hnone, l, hmem, hl⟩ := ih (statsInsert acc k0 n) t h
        exact ⟨hnone, l, List.mem_cons_of_mem _ hmem, hl⟩
    · cases h

/-- The loop `buildStats` never reports a missing field. -/
lemma buildStats_not_missing :
    ∀ (lines : List String) (acc : List (String × Nat)) (k : String),
      buildStats lines acc ≠ .error (.MissingImportantField k) := by
  intro lines
  induction lines with
  | nil => intro acc k h; simp [buildStats] at h
  | cons line rest ih =>
    intro acc k h
    rcases hsp : rustSplitWhitespace line with _ | ⟨k0, _ | ⟨v, _ | ⟨w, tl⟩⟩⟩ <;>
      simp only [buildStats, hsp] at h
    · cases h
    · cases h
    · cases hpv : parseU64 v with
      | none => rw [hpv] at h; cases h
      | some n => rw [hpv] at h; exact ih (statsInsert acc k0 n) k h
    · cases h

/-- A `cpu.stat` text with a blank (token-free) line in the middle. -/
def blankLineStat : String := "usage_usec 1\n\nuser_usec 2\nsystem_usec 3"

/-- Counterexample to C7 as stated: in `blankLineStat` every line that has
    tokens is well-formed and all three required keys are present, so the
    claim predicts success — but the parser rejects the blank line with
    `InvalidRow ""`: blank lines are NOT ignored. -/
theorem blank_line_invalid_row_cex :
    cpuStatsFromStr blankLineStat = .error (.InvalidRow "") ∧
    ((rustLines blankLineStat).filter
      (fun l => rustSplitWhitespace l ≠ [])).all lineOk = true ∧
    keyPresent blankLineStat "usage_usec" = true ∧
    keyPresent blankLineStat "user_usec" = true ∧
    keyPresent blankLineStat "system_usec" = true :=
  ⟨by decide, by decide, by decide, by decide, by decide⟩

/-- Claim C7 (amended: blank lines are NOT ignored — every line, blank ones
    included, must have exactly two tokens, a blank line failing with
    `InvalidRow ""`): `CpuStats::from_str` succeeds exactly on texts in
    which every line has exactly two whitespace-separated tokens whose
    second parses as a base-10 non-negative 64-bit integer and which
    contain the keys usage_usec, user_usec, system_usec (extra keys
    ignored); on success the three fields are the values bound to those
    keys; a line without exactly two tokens yields `InvalidRow` naming it,
    an unparsable second token yields `InvalidNumber` naming it, and — with
    all lines well-formed — an absent required key yields
    `MissingImportantField`. -/
theorem cpu_stats_characterization (s : String) :
    ((∃ c, cpuStatsFromStr s = .ok c) ↔
      ((rustLines s).all lineOk = true ∧
       keyPresent s "usage_usec" = true ∧
       keyPresent s "user_usec" = true ∧
       keyPresent s "system_usec" = true)) ∧
    (∀ c, cpuStatsFromStr s = .ok c → ∃ st,
       buildStats (rustLines s) [] = .ok st ∧
       statsGet st "usage_usec" = some c.usage_usec ∧
       statsGet st "user_usec" = some c.user_usec ∧
       statsGet st "system_usec" = some c.system_usec) ∧
    (∀ l, cpuStatsFromStr s = .error (.InvalidRow l) →
       l ∈ rustLines s ∧ (rustSplitWhitespace l).length ≠ 2) ∧
    (∀ t, cpuStatsFromStr s = .error (.InvalidNumber t) →
       parseU64 t = none ∧
         ∃ l ∈ rustLines s, rustSplitWhitespace l = [firstTok l, t]) ∧
    (∀ k, cpuStatsFromStr s = .error (.MissingImportantField k) →
       (rustLines s).all lineOk = true ∧ keyPresent s k = false ∧
       k ∈ (["usage_usec", "user_usec", "system_usec"] : List String)) := by
  cases hbuild : buildStats (rustLines s) [] with
  | error e =>
    have hfrom : cpuStatsFromStr s = .error e := by
      unfold cpuStatsFromStr
      rw [hbuild]
    have hnall : ¬(rustLines s).all lineOk = true := by
      intro hall
      obtain ⟨st, hst⟩ := (buildStats_ok_iff (rustLines s) []).mpr hall
      rw [hbuild] at hst
      cases hst
    refine ⟨?_, ?_, ?_, ?_, ?_⟩
    · constructor
      · intro hc
        obtain ⟨c, hc⟩ := hc
        rw [hfrom] at hc
        cases hc
      · intro hrhs
        exact absurd hrhs.1 hnall
    · intro c hc
      rw [hfrom] at hc
      cases hc
    · intro l hl
      rw [hfrom] at hl
      have he : e = .InvalidRow l := Except.error.inj hl
      subst he
      exact buildStats_invalidRow _ _ _ hbuild
    · intro t ht
      rw [hfrom] at ht
      have he : e = .InvalidNumber t := Except.error.inj ht
      subst he
      exact buildStats_invalidNumber _ _ _ hbuild
    · intro k hk
      rw [hfrom] at hk
      have he : e = .MissingImportantField k := Except.error.inj hk
      subst he
      exact absurd hbuild (buildStats_not_missing _ _ _)
  | ok st =>
    have hall : (rustLines s).all lineOk = true :=
      (buildStats_ok_iff (rustLines s) []).mp ⟨st, hbuild⟩
    have hkeys : ∀ k, (statsGet st k).isSome = keyPresent s k := by
      intro k
      rw [buildStats_keys (rustLines s) [] st hbuild k]
      simp [keyPresent, statsGet]
    cases hu : statsGet st "usage_usec" with
    | none =>
      have hfrom : cpuStatsFromStr s =
          .error (.MissingImportantField "usage_usec") := by
        unfold cpuStatsFromStr
        rw [hbuild]
        dsimp only
        rw [hu]
      have hkp : keyPresent s "usage_usec" = false := by
        rw [← hkeys, hu]
        rfl
      refine ⟨?_, ?_, ?_, ?_, ?_⟩
      · constructor
        · intro hc
          obtain ⟨c, hc⟩ := hc
          rw [hfrom] at hc
          cases hc
        · intro hrhs
          rw [hkp] at hrhs
          exact absurd hrhs.2.1 (by simp)
      · intro c hc
        rw [hfrom] at hc
        cases hc
      · intro l hl
        rw [hfrom] at hl
        cases Except.error.inj hl
      · intro t ht
        rw [hfrom] at ht
        cases Except.error.inj ht
      · intro k hk
        rw [hfrom] at hk
        have he : (ParseCpuStatsError.MissingImportantField "usage_usec") =
            .MissingImportantField k := Except.error.inj hk
        injection he with he
        subst he
        exact ⟨hall, hkp, by simp⟩
    | some u =>
      cases huser : statsGet st "user_usec" with
      | none =>
        have hfrom : cpuStatsFromStr s =
            .error (.MissingImportantField "user_usec") := by
          unfold cpuStatsFromStr
          rw [hbuild]
          dsimp only
          rw [hu]
          dsimp only
          rw [huser]
        have hkp : keyPresent s "user_usec" = false := by
          rw [← hkeys, huser]
          rfl
        refine ⟨?_, ?_, ?_, ?_, ?_⟩
        · constructor
          · intro hc
            obtain ⟨c, hc⟩ := hc
            rw [hfrom] at hc
            cases hc
          · intro hrhs
            rw [hkp] at hrhs
            exact absurd hrhs.2.2.1 (by simp)
        · intro c hc
          rw [hfrom] at hc
          cases hc
        · intro l hl
          rw [hfrom] at hl
          cases Except.error.inj hl
        · intro t ht
          rw [hfrom] at ht
          cases Except.error.inj ht
        · intro k hk
          rw [hfrom] at hk
          have he : (ParseCpuStatsError.MissingImportantField "user_usec") =
              .MissingImportantField k := Except.error.inj hk
          injection he with he
          subst he
          exact ⟨hall, hkp, by simp⟩
      | some uu =>
        cases hsys : statsGet st "system_usec" with
        | none =>
          have hfrom : cpuStatsFromStr s =
              .error (.MissingImportantField "system_usec") := by
            unfold cpuStatsFromStr
            rw [hbuild]
            dsimp only
            rw [hu]
            dsimp only
            rw [huser]
            dsimp only
            rw [hsys]
          have hkp : keyPresent s "system_usec" = false := by
            rw [← hkeys, hsys]
            rfl
          refine ⟨?_, ?_, ?_, ?_, ?_⟩
          · constructor
            · intro hc
              obtain ⟨c, hc⟩ := hc
              rw [hfrom] at hc
              cases hc
            · intro hrhs
              rw [hkp] at hrhs
              exact absurd hrhs.2.2.2 (by simp)
          · intro c hc
            rw [hfrom] at hc
            cases hc
          · intro l hl
            rw [hfrom] at hl
            cases Except.error.inj hl
          · intro t ht
            rw [hfrom] at ht
            cases Except.error.inj ht
          · intro k hk
            rw [hfrom] at hk
            have he :
                (ParseCpuStatsError.MissingImportantField "system_usec") =
                .MissingImportantField k := Except.error.inj hk
            injection he with he
            subst he
            exact ⟨hall, hkp, by simp⟩
        | some us =>
          have hfrom : cpuStatsFromStr s =
              .ok { usage_usec := u, user_usec := uu,
                    system_usec := us } := by
            unfold cpuStatsFromStr
            rw [hbuild]
            dsimp only
            rw [hu]
            dsimp only
            rw [huser]
            dsimp only
            rw [hsys]
          refine ⟨?_, ?_, ?_, ?_, ?_⟩
          · constructor
            · intro _
              refine ⟨hall, ?_, ?_, ?_⟩
              · rw [← hkeys, hu]; rfl
              · rw [← hkeys, huser]; rfl
              · rw [← hkeys, hsys]; rfl
            · intro _
              exact ⟨_, hfrom⟩
          · intro c hc
            rw [hfrom] at hc
            have he := Except.ok.inj hc
            subst he
            exact ⟨st, rfl, hu, huser, hsys⟩
          · intro l hl
            rw [hfrom] at hl
            cases hl
          · intro t ht
            rw [hfrom] at ht
            cases ht
          · intro k hk
            rw [hfrom] at hk
            cases hk

/-- Witness for C7: the success characterization applied at a concrete
    well-formed text. -/
theorem cpu_stats_characterization_witness :
    ∃ c, cpuStatsFromStr "usage_usec 5\nuser_usec 3\nsystem_usec 2" =
      .ok c :=
  (cpu_stats_characterization
    "usage_usec 5\nuser_usec 3\nsystem_usec 2").1.mpr
    ⟨by decide, by decide, by decide, by decide⟩

end JudgeCore
